import Mathlib

/-!
Verification of the Chile Compra monitoring service (TypeScript sources)
against its natural-language specification.

The development shallowly embeds the core pipeline:
  * `removeDuplicateOffers`  — ExtractionService.removeDuplicateOffers
  * `insertOfertas`          — DatabaseService.insertOfertas over a store with
                               the unique (id, emprendimiento) index
  * `getAllOfertas`          — ChileCompraApiService.getAllOfertas (pagination)
  * `getOfertasWithParams`   — ChileCompraApiService.getOfertasWithParams
  * `sendOfertasReport`      — EmailService.sendOfertasReport
  * `processEmprendimiento`, `runCompleteExtraction`
                             — ExtractionService orchestration

Network, database driver and clock are modelled as explicit environment
parameters (functions supplied to the embedded code); everything else is
translated directly from the TypeScript.
-/

/-- One procurement offer as returned by the remote API
(interface `Oferta` in models/types). String fields model JS strings,
`Int` fields model JS numbers, `Option` models nullable fields. -/
structure Oferta where
  id : Int
  codigo : String
  nombre : String
  fecha_publicacion : String
  fecha_cierre : String
  organismo : String
  unidad : String
  id_estado : Int
  estado : String
  monto_disponible : Int
  moneda : String
  monto_disponible_CLP : Int
  fecha_cambio : Option String
  valor_cambio_moneda : Option Int
  cantidad_proveedores_cotizando : Int
  estado_convocatoria : Int
deriving DecidableEq, Repr

/-- A stored offer: an `Oferta` plus the extraction metadata added by
`ExtractionService.extractOffersForEndpoint` (interface `OfertaDocument`).
The JS `Date` value `fecha_extraccion` is modelled as a string. -/
structure OfertaDocument extends Oferta where
  emprendimiento : String
  endpoint_name : String
  fecha_extraccion : String
  enlace_ficha : String
deriving DecidableEq, Repr

/-- Helper to build concrete offers in examples: all fields default except
the numeric id and the code. -/
def mkOferta (i : Int) (cod : String) : Oferta :=
  { id := i, codigo := cod, nombre := "", fecha_publicacion := "", fecha_cierre := ""
    organismo := "", unidad := "", id_estado := 0, estado := "", monto_disponible := 0
    moneda := "CLP", monto_disponible_CLP := 0, fecha_cambio := none
    valor_cambio_moneda := none, cantidad_proveedores_cotizando := 0
    estado_convocatoria := 0 }

/-- Helper to build concrete stored offers in examples. -/
def mkDoc (i : Int) (cod emp : String) : OfertaDocument :=
  { toOferta := mkOferta i cod, emprendimiento := emp, endpoint_name := ""
    fecha_extraccion := "", enlace_ficha := "" }

/-! ## Dedup step (ExtractionService.removeDuplicateOffers)

TypeScript:
```
const seen = new Set<number>();
return ofertas.filter((oferta) => {
  if (seen.has(oferta.id)) return false;
  seen.add(oferta.id);
  return true;
});
```
The mutable `seen` set is threaded explicitly. -/

/-- Recursive worker for `removeDuplicateOffers`: `seen` is the set of ids
already kept, in the state the JS closure would have reached. -/
def removeDuplicateOffersGo (seen : List Int) : List OfertaDocument → List OfertaDocument
  | [] => []
  | o :: rest =>
    if o.id ∈ seen then removeDuplicateOffersGo seen rest
    else o :: removeDuplicateOffersGo (o.id :: seen) rest

/-- ExtractionService.removeDuplicateOffers: keep the first offer seen for
each numeric id, drop later offers with an id already seen. -/
def removeDuplicateOffers (ofertas : List OfertaDocument) : List OfertaDocument :=
  removeDuplicateOffersGo [] ofertas

theorem removeDuplicateOffersGo_sublist (seen : List Int) (l : List OfertaDocument) :
    (removeDuplicateOffersGo seen l).Sublist l := by
  induction l generalizing seen with
  | nil => simp [removeDuplicateOffersGo]
  | cons o rest ih =>
    by_cases h : o.id ∈ seen
    · simp only [removeDuplicateOffersGo, if_pos h]
      exact (ih seen).cons o
    · simp only [removeDuplicateOffersGo, if_neg h]
      exact (ih (o.id :: seen)).cons₂ o

theorem removeDuplicateOffersGo_not_seen (seen : List Int) (l : List OfertaDocument) :
    ∀ o ∈ removeDuplicateOffersGo seen l, o.id ∉ seen := by
  induction l generalizing seen with
  | nil => simp [removeDuplicateOffersGo]
  | cons o rest ih =>
    by_cases h : o.id ∈ seen
    · simpa only [removeDuplicateOffersGo, if_pos h] using ih seen
    · simp only [removeDuplicateOffersGo, if_neg h]
      intro b hb
      rcases List.mem_cons.mp hb with hb | hb
      · subst hb; exact h
      · have := ih (o.id :: seen) b hb
        intro hc
        exact this (List.mem_cons_of_mem _ hc)

theorem removeDuplicateOffersGo_pairwise (seen : List Int) (l : List OfertaDocument) :
    (removeDuplicateOffersGo seen l).Pairwise (fun a b => a.id ≠ b.id) := by
  induction l generalizing seen with
  | nil => simp [removeDuplicateOffersGo]
  | cons o rest ih =>
    by_cases h : o.id ∈ seen
    · simpa only [removeDuplicateOffersGo, if_pos h] using ih seen
    · simp only [removeDuplicateOffersGo, if_neg h]
      refine List.Pairwise.cons ?_ (ih (o.id :: seen))
      intro b hb
      have := removeDuplicateOffersGo_not_seen (o.id :: seen) rest b hb
      intro hc
      exact this (by simp [hc])

theorem removeDuplicateOffersGo_find (seen : List Int) (l : List OfertaDocument)
    (i : Int) (hi : i ∉ seen) :
    (removeDuplicateOffersGo seen l).find? (fun o => o.id == i) =
      l.find? (fun o => o.id == i) := by
  induction l generalizing seen with
  | nil => simp [removeDuplicateOffersGo]
  | cons o rest ih =>
    by_cases h : o.id ∈ seen
    · have hne : (o.id == i) = false := by
        simp only [beq_eq_false_iff_ne, ne_eq]
        intro hc; subst hc; exact hi h
      simp only [removeDuplicateOffersGo, if_pos h, List.find?_cons, hne]
      exact ih seen hi
    · by_cases he : o.id = i
      · subst he
        simp only [removeDuplicateOffersGo, if_neg h]
        rw [List.find?_cons_of_pos _ (by simp), List.find?_cons_of_pos _ (by simp)]
      · have hne : (o.id == i) = false := by
          simp only [beq_eq_false_iff_ne, ne_eq]; exact he
        simp only [removeDuplicateOffersGo, if_neg h, List.find?_cons, hne]
        refine ih (o.id :: seen) ?_
        intro hc
        rcases List.mem_cons.mp hc with hc | hc
        · exact he hc.symm
        · exact hi hc

/-- C4: the dedup step returns a subsequence of the input, of length at most
the input length, in which no two records share a numeric id, and which keeps
for each id exactly the first record carrying it in input order (stated via
`find?`: searching for any id in the output finds exactly what searching
in the input finds — the first occurrence). -/
theorem removeDuplicateOffers_spec (l : List OfertaDocument) :
    (removeDuplicateOffers l).Sublist l ∧
    (removeDuplicateOffers l).length ≤ l.length ∧
    (removeDuplicateOffers l).Pairwise (fun a b => a.id ≠ b.id) ∧
    ∀ i : Int, (removeDuplicateOffers l).find? (fun o => o.id == i) =
      l.find? (fun o => o.id == i) := by
  refine ⟨removeDuplicateOffersGo_sublist [] l,
    (removeDuplicateOffersGo_sublist [] l).length_le,
    removeDuplicateOffersGo_pairwise [] l, ?_⟩
  intro i
  exact removeDuplicateOffersGo_find [] l i (by simp)

/-! ## Persistence layer (DatabaseService.insertOfertas)

The MongoDB collection is modelled as a list of stored documents carrying
the unique compound index `(id, emprendimiento)` created by
`DatabaseService.createIndexes`. `collection.insertOne` throws the Mongo
duplicate-key error (code 11000) exactly when the index is violated;
any other driver/storage error is injected through an explicit fault
schedule (`fault i` is the error the environment throws at the i-th insert
attempt, if any). -/

/-- Result of DatabaseService.insertOfertas: the stored collection after the
call together with the two counters the method returns. -/
structure InsertResult where
  store : List OfertaDocument
  insertedCount : Nat
  duplicateCount : Nat
deriving DecidableEq, Repr

/-- Two documents collide on the unique index when they agree on the pair
(numeric id, emprendimiento). -/
def sameKey (a b : OfertaDocument) : Bool :=
  a.id == b.id && a.emprendimiento == b.emprendimiento

/-- Whether inserting `o` into `store` would violate the unique index. -/
def keyPresent (store : List OfertaDocument) (o : OfertaDocument) : Bool :=
  store.any (fun s => sameKey s o)

/-- One `collection.insertOne(oferta)` call: an injected environment fault
throws with its code; otherwise the unique index either rejects the document
with code 11000 or the document is appended to the collection. -/
def insertOne (fault : Option Int) (store : List OfertaDocument) (o : OfertaDocument) :
    Except Int (List OfertaDocument) :=
  match fault with
  | some c => .error c
  | none =>
    if keyPresent store o then .error 11000
    else .ok (store ++ [o])

/-- The per-document try/catch loop of DatabaseService.insertOfertas:
a thrown error with `error.code === 11000` increments duplicateCount and the
loop continues; any other thrown error is rethrown, aborting the loop.
`i` indexes insert attempts into the fault schedule. -/
def insertOfertasGo (fault : Nat → Option Int) (i : Nat) (store : List OfertaDocument)
    (ins dup : Nat) : List OfertaDocument → Except Int InsertResult
  | [] => .ok ⟨store, ins, dup⟩
  | o :: rest =>
    match insertOne (fault i) store o with
    | .ok store2 => insertOfertasGo fault (i + 1) store2 (ins + 1) dup rest
    | .error c =>
      if c = 11000 then insertOfertasGo fault (i + 1) store ins (dup + 1) rest
      else .error c

/-- DatabaseService.insertOfertas: empty batches return zero counters before
any collection access; otherwise each document is inserted in order through
the try/catch loop. (The active-connection guard is modelled at the caller,
which checks and establishes the connection before inserting.) -/
def insertOfertas (store ofertas : List OfertaDocument) (fault : Nat → Option Int) :
    Except Int InsertResult :=
  if ofertas.isEmpty then .ok ⟨store, 0, 0⟩
  else insertOfertasGo fault 0 store 0 0 ofertas

/-- Fault schedule of a run in which the driver and storage never fail on
their own: only unique-index violations throw. -/
def noFault : Nat → Option Int := fun _ => none

theorem insertOfertasGo_counts (fault : Nat → Option Int) :
    ∀ (l : List OfertaDocument) (i : Nat) (store : List OfertaDocument) (ins dup : Nat)
      (r : InsertResult), insertOfertasGo fault i store ins dup l = .ok r →
      r.insertedCount + r.duplicateCount = ins + dup + l.length := by
  intro l
  induction l with
  | nil =>
    intro i store ins dup r h
    simp only [insertOfertasGo] at h
    cases h
    simp
  | cons o rest ih =>
    intro i store ins dup r h
    simp only [insertOfertasGo] at h
    cases hf : fault i with
    | some c =>
      rw [hf] at h
      simp only [insertOne] at h
      by_cases hc : c = 11000
      · rw [if_pos hc] at h
        have := ih (i + 1) store ins (dup + 1) r h
        simp only [List.length_cons] at *
        omega
      · rw [if_neg hc] at h
        cases h
    | none =>
      rw [hf] at h
      simp only [insertOne] at h
      by_cases hk : keyPresent store o
      · rw [if_pos hk] at h
        simp only [reduceIte] at h
        have := ih (i + 1) store ins (dup + 1) r h
        simp only [List.length_cons] at *
        omega
      · rw [if_neg hk] at h
        have := ih (i + 1) (store ++ [o]) (ins + 1) dup r h
        simp only [List.length_cons] at *
        omega

/-- C10: whenever insertOfertas completes without throwing, the two counters
it returns sum to the size of the submitted batch (each is a `Nat`, hence
non-negative); and the empty batch yields zero counters and an unchanged
store, with no write performed. -/
theorem insertOfertas_counts (store ofertas : List OfertaDocument)
    (fault : Nat → Option Int) :
    (∀ r : InsertResult, insertOfertas store ofertas fault = .ok r →
      r.insertedCount + r.duplicateCount = ofertas.length) ∧
    insertOfertas store [] fault = .ok ⟨store, 0, 0⟩ := by
  constructor
  · intro r h
    by_cases he : ofertas.isEmpty
    · simp only [insertOfertas, if_pos he] at h
      cases h
      simp [List.isEmpty_iff.mp he]
    · simp only [insertOfertas, if_neg he] at h
      simpa using insertOfertasGo_counts fault ofertas 0 store 0 0 r h
  · simp [insertOfertas]

/-- Witness for `insertOfertas_counts` at a concrete one-document batch. -/
theorem insertOfertas_counts_witness :
    (1 : Nat) + 0 = ([mkDoc 1 "c1" "transporte"] : List OfertaDocument).length :=
  (insertOfertas_counts [] [mkDoc 1 "c1" "transporte"] noFault).1
    ⟨[mkDoc 1 "c1" "transporte"], 1, 0⟩ (by rfl)

/-- C6: inside the insert loop, a document whose insertion violates the
uniqueness constraint (a duplicate-key throw, code 11000) is skipped — the
store is unchanged — counted as a duplicate, and the loop continues with the
rest of the batch; any other storage error thrown at an insert attempt
aborts the rest of the batch and propagates to the caller. -/
theorem insertOfertas_error_policy (fault : Nat → Option Int) (i ins dup : Nat)
    (store : List OfertaDocument) (o : OfertaDocument) (rest : List OfertaDocument) :
    (fault i = none → keyPresent store o = true →
      insertOfertasGo fault i store ins dup (o :: rest) =
        insertOfertasGo fault (i + 1) store ins (dup + 1) rest) ∧
    (∀ c : Int, fault i = some c → c ≠ 11000 →
      insertOfertasGo fault i store ins dup (o :: rest) = .error c) := by
  constructor
  · intro hf hk
    simp only [insertOfertasGo, hf, insertOne, if_pos hk]
    simp
  · intro c hf hc
    simp only [insertOfertasGo, hf, insertOne, if_neg hc]

/-- Witness for `insertOfertas_error_policy`: a non-11000 fault at the first
attempt aborts a one-document batch; a colliding key (same id and business
line, different content) is counted as duplicate and skipped. -/
theorem insertOfertas_error_policy_witness :
    insertOfertasGo (fun k => if k = 0 then some 5 else none) 0 [] 0 0
      [mkDoc 1 "c1" "transporte"] = .error 5 ∧
    insertOfertasGo noFault 0 [mkDoc 1 "c1" "transporte"] 0 0
      [mkDoc 1 "other" "transporte"] =
      insertOfertasGo noFault 1 [mkDoc 1 "c1" "transporte"] 0 1 [] :=
  ⟨(insertOfertas_error_policy (fun k => if k = 0 then some 5 else none)
      0 0 0 [] (mkDoc 1 "c1" "transporte") []).2 5 rfl (by decide),
   (insertOfertas_error_policy noFault 0 0 0 [mkDoc 1 "c1" "transporte"]
      (mkDoc 1 "other" "transporte") []).1 rfl (by decide)⟩

theorem keyPresent_append (store : List OfertaDocument) (a x : OfertaDocument) :
    keyPresent (store ++ [a]) x = (keyPresent store x || sameKey a x) := by
  simp [keyPresent, List.any_append]

theorem sameKey_self (o : OfertaDocument) : sameKey o o = true := by
  simp [sameKey]

theorem insertOfertasGo_presence (l : List OfertaDocument) :
    ∀ (i : Nat) (store : List OfertaDocument) (ins dup : Nat) (r : InsertResult),
      insertOfertasGo noFault i store ins dup l = .ok r →
      (∀ o ∈ l, keyPresent r.store o = true) ∧
      (∀ o, keyPresent store o = true → keyPresent r.store o = true) := by
  induction l with
  | nil =>
    intro i store ins dup r h
    simp only [insertOfertasGo] at h
    cases h
    exact ⟨by simp, fun o ho => ho⟩
  | cons o rest ih =>
    intro i store ins dup r h
    simp only [insertOfertasGo, noFault, insertOne] at h
    by_cases hk : keyPresent store o
    · rw [if_pos hk] at h
      simp only [reduceIte] at h
      obtain ⟨h1, h2⟩ := ih (i + 1) store ins (dup + 1) r h
      refine ⟨?_, h2⟩
      intro x hx
      rcases List.mem_cons.mp hx with hx | hx
      · subst hx; exact h2 x hk
      · exact h1 x hx
    · rw [if_neg hk] at h
      obtain ⟨h1, h2⟩ := ih (i + 1) (store ++ [o]) (ins + 1) dup r h
      have hpres : ∀ x, keyPresent store x = true → keyPresent (store ++ [o]) x = true := by
        intro x hx
        rw [keyPresent_append, hx]
        simp
      refine ⟨?_, fun x hx => h2 x (hpres x hx)⟩
      intro x hx
      rcases List.mem_cons.mp hx with hx | hx
      · subst hx
        refine h2 x ?_
        rw [keyPresent_append, sameKey_self]
        simp
      · exact h1 x hx

theorem insertOfertasGo_all_dup (l : List OfertaDocument) :
    ∀ (i : Nat) (store : List OfertaDocument) (ins dup : Nat),
      (∀ o ∈ l, keyPresent store o = true) →
      insertOfertasGo noFault i store ins dup l = .ok ⟨store, ins, dup + l.length⟩ := by
  induction l with
  | nil => intro i store ins dup _; simp [insertOfertasGo]
  | cons o rest ih =>
    intro i store ins dup hall
    have hk : keyPresent store o = true := hall o (by simp)
    simp only [insertOfertasGo, noFault, insertOne, if_pos hk, reduceIte]
    have := ih (i + 1) store ins (dup + 1) (fun x hx => hall x (by simp [hx]))
    rw [this, List.length_cons]
    have harith : dup + (rest.length + 1) = dup + 1 + rest.length := by omega
    rw [harith]

/-- C5: insertBatch is idempotent — running the same batch a second time
against the store produced by the first run inserts nothing (every document
of the second run is counted as a duplicate under the uniqueness invariant)
and leaves the stored set exactly as after the first run. -/
theorem insertOfertas_idempotent (store b : List OfertaDocument) (r : InsertResult)
    (h : insertOfertas store b noFault = .ok r) :
    insertOfertas r.store b noFault = .ok ⟨r.store, 0, b.length⟩ := by
  by_cases he : b.isEmpty
  · simp only [insertOfertas, if_pos he] at h ⊢
    cases h
    simp [List.isEmpty_iff.mp he]
  · simp only [insertOfertas, if_neg he] at h ⊢
    have hall := (insertOfertasGo_presence b 0 store 0 0 r h).1
    simpa using insertOfertasGo_all_dup b 0 r.store 0 0 hall

/-- Witness for `insertOfertas_idempotent`: a two-document batch whose second
document collides with the first; rerunning it yields only duplicates. -/
theorem insertOfertas_idempotent_witness :
    insertOfertas [mkDoc 1 "c1" "transporte"]
      [mkDoc 1 "c1" "transporte", mkDoc 1 "other" "transporte"] noFault =
      .ok ⟨[mkDoc 1 "c1" "transporte"], 0, 2⟩ :=
  insertOfertas_idempotent [] [mkDoc 1 "c1" "transporte", mkDoc 1 "other" "transporte"]
    ⟨[mkDoc 1 "c1" "transporte"], 1, 1⟩ (by rfl)

/-! ## Paginated fetcher (ChileCompraApiService.getAllOfertas)

The HTTP layer is an environment `pages : Nat → Option ApiPayload`: `pages p`
is the parsed payload of a successful request for page `p`, and `none` means
the request for that page throws (network error, timeout, or a response whose
success marker is not "OK" — fetchPage converts all of these into a throw).
The side effects of the loop (page requests, inter-request delays) are
recorded in an event trace. -/

/-- Payload of one API response (the `payload` object of `ApiResponse`). -/
structure ApiPayload where
  resultCount : Nat
  pageCount : Nat
  page : Nat
  pageSize : Nat
  resultados : List Oferta
deriving DecidableEq, Repr

/-- Observable side effects of the fetch loop: a page request, or the
inter-request delay the loop awaits before each page after the first. -/
inductive FetchEvent where
  | req (page : Nat)
  | delay (ms : Nat)
deriving DecidableEq, Repr

/-- The `for (currentPage = 2; currentPage <= totalPages; ...)` loop of
getAllOfertas: for each remaining page, await the configured delay, request
the page and append its results; on a throw, the surrounding catch returns
the accumulated offers when non-empty and rethrows otherwise. -/
def fetchPagesGo (pages : Nat → Option ApiPayload) (d : Nat) :
    List Oferta → List FetchEvent → List Nat → Except Unit (List Oferta) × List FetchEvent
  | acc, evs, [] => (.ok acc, evs)
  | acc, evs, p :: rest =>
    let evs2 := evs ++ [FetchEvent.delay d, FetchEvent.req p]
    match pages p with
    | some payload => fetchPagesGo pages d (acc ++ payload.resultados) evs2 rest
    | none => (if acc.isEmpty then .error () else .ok acc, evs2)

/-- ChileCompraApiService.getAllOfertas: request page 1, learn
`totalPages = payload.pageCount`, then fetch pages 2..totalPages
sequentially; any throw is caught and converted into the accumulated
offers unless nothing was accumulated yet, in which case it propagates
(modelled as `.error ()`). `d` is `delayBetweenRequests`. -/
def getAllOfertas (pages : Nat → Option ApiPayload) (d : Nat) :
    Except Unit (List Oferta) × List FetchEvent :=
  match pages 1 with
  | none => (.error (), [FetchEvent.req 1])
  | some first =>
    fetchPagesGo pages d first.resultados [FetchEvent.req 1]
      (List.range' 2 (first.pageCount - 1))

theorem fetchPagesGo_success_chunk (pages : Nat → Option ApiPayload)
    (payload : Nat → ApiPayload) (d : Nat) (L1 : List Nat) :
    ∀ (L2 : List Nat) (acc : List Oferta) (evs : List FetchEvent),
      (∀ p ∈ L1, pages p = some (payload p)) →
      fetchPagesGo pages d acc evs (L1 ++ L2) =
        fetchPagesGo pages d (acc ++ L1.flatMap fun p => (payload p).resultados)
          (evs ++ L1.flatMap fun p => [FetchEvent.delay d, FetchEvent.req p]) L2 := by
  induction L1 with
  | nil => intro L2 acc evs _; simp
  | cons p ps ih =>
    intro L2 acc evs hall
    have hp : pages p = some (payload p) := hall p (by simp)
    simp only [List.cons_append, fetchPagesGo, hp, List.append_eq]
    rw [ih L2 (acc ++ (payload p).resultados)
      (evs ++ [FetchEvent.delay d, FetchEvent.req p])
      (fun q hq => hall q (by simp [hq]))]
    simp

/-- C7: when every page request succeeds and page 1 reports
`pageCount = k` with `k ≥ 1`, getAllOfertas issues exactly the requests
for pages 1, 2, ..., k in that order — page 1 first with no preceding
delay, every later page preceded by the configured delay — and returns
the concatenation of the k page payloads in page order. -/
theorem getAllOfertas_success (payload : Nat → ApiPayload) (d k : Nat)
    (hk : 1 ≤ k) (hc : (payload 1).pageCount = k) :
    getAllOfertas (fun p => some (payload p)) d =
      (.ok ((List.range' 1 k).flatMap fun p => (payload p).resultados),
       FetchEvent.req 1 ::
         ((List.range' 2 (k - 1)).flatMap
           fun p => [FetchEvent.delay d, FetchEvent.req p])) := by
  have hsplit : List.range' 1 k = 1 :: List.range' 2 (k - 1) := by
    obtain ⟨m, rfl⟩ : ∃ m, k = m + 1 := ⟨k - 1, by omega⟩
    simp [List.range'_succ]
  simp only [getAllOfertas, hc]
  rw [show List.range' 2 (k - 1) = List.range' 2 (k - 1) ++ [] from (List.append_nil _).symm]
  rw [fetchPagesGo_success_chunk (fun p => some (payload p)) payload d
    (List.range' 2 (k - 1)) [] (payload 1).resultados [FetchEvent.req 1]
    (fun p _ => rfl)]
  simp only [fetchPagesGo, hsplit, List.flatMap_cons]
  simp

/-- C3: partial-result salvage. If the request for page 1 itself fails,
nothing was accumulated and the failure propagates. If pages 1..j-1
succeed (j ≥ 2, j within the reported page count) and the request for
page j fails, the fetcher stops and returns the records accumulated from
pages 1..j-1 without raising — unless that accumulation is empty, in
which case the failure propagates. -/
theorem getAllOfertas_partial_failure (pages : Nat → Option ApiPayload)
    (payload : Nat → ApiPayload) (d j k : Nat) :
    (pages 1 = none → (getAllOfertas pages d).fst = .error ()) ∧
    (2 ≤ j → j ≤ k →
      (∀ p, 1 ≤ p → p < j → pages p = some (payload p)) →
      (payload 1).pageCount = k → pages j = none →
      ((((List.range' 1 (j - 1)).flatMap fun p => (payload p).resultados) ≠ [] →
        (getAllOfertas pages d).fst =
          .ok ((List.range' 1 (j - 1)).flatMap fun p => (payload p).resultados)) ∧
       ((((List.range' 1 (j - 1)).flatMap fun p => (payload p).resultados) = []) →
        (getAllOfertas pages d).fst = .error ()))) := by
  constructor
  · intro h1
    simp [getAllOfertas, h1]
  · intro hj2 hjk hall hc hj
    have h1 : pages 1 = some (payload 1) := hall 1 (by omega) (by omega)
    have hsplit : List.range' 2 (k - 1) =
        List.range' 2 (j - 2) ++ (j :: List.range' (j + 1) (k - j)) := by
      have h2j : 2 + (j - 2) = j := by omega
      have hrs : (j : Nat) :: List.range' (j + 1) (k - j) = List.range' j ((k - j) + 1) := by
        rw [List.range'_succ]
      rw [hrs]
      have := List.range'_append 2 (j - 2) ((k - j) + 1) 1
      simp only [Nat.one_mul, h2j] at this
      rw [this]
      congr 1
      omega
    have hacc : (payload 1).resultados ++
        ((List.range' 2 (j - 2)).flatMap fun p => (payload p).resultados) =
        (List.range' 1 (j - 1)).flatMap fun p => (payload p).resultados := by
      have hj1 : j - 1 = (j - 2) + 1 := by omega
      rw [hj1, List.range'_succ, List.flatMap_cons]
    simp only [getAllOfertas, h1, hc, hsplit]
    rw [fetchPagesGo_success_chunk pages payload d (List.range' 2 (j - 2)) _
      (payload 1).resultados [FetchEvent.req 1]
      (fun p hp => by
        have := List.mem_range'_1.mp hp
        exact hall p (by omega) (by omega))]
    simp only [fetchPagesGo, hj, hacc]
    constructor
    · intro hne
      have : (((List.range' 1 (j - 1)).flatMap fun p => (payload p).resultados).isEmpty) = false := by
        simpa [List.isEmpty_iff] using hne
      simp [this]
    · intro heq
      have : (((List.range' 1 (j - 1)).flatMap fun p => (payload p).resultados).isEmpty) = true := by
        simpa [List.isEmpty_iff] using heq
      simp [this]

/-- A concrete three-page environment whose page payloads each carry one
offer; used by the fetcher witnesses. -/
def payloadW : Nat → ApiPayload :=
  fun p => ⟨30, 3, p, 10, [mkOferta (Int.ofNat p) "w"]⟩

/-- The concrete environment in which page 2 fails and every other page
succeeds. -/
def pagesW : Nat → Option ApiPayload :=
  fun p => if p = 2 then none else some (payloadW p)

/-- Witness for `getAllOfertas_partial_failure`: page 1 succeeds with one
offer, page 2 of 3 fails, and the fetcher returns page 1 offers without
raising. -/
theorem getAllOfertas_partial_failure_witness :
    (getAllOfertas pagesW 2000).fst = .ok [mkOferta 1 "w"] := by
  have h := (getAllOfertas_partial_failure pagesW payloadW 2000 2 3).2
    (by omega) (by omega)
    (fun p h1 h2 => by
      have hp : p = 1 := by omega
      subst hp; rfl)
    rfl rfl
  exact h.1 (by decide)

/-- Witness for `getAllOfertas_success`: a three-page query yields requests
for pages 1, 2, 3 (delays before pages 2 and 3) and the three page payloads
concatenated in order. -/
theorem getAllOfertas_success_witness :
    getAllOfertas (fun p => some (payloadW p)) 2000 =
      (.ok [mkOferta 1 "w", mkOferta 2 "w", mkOferta 3 "w"],
       [FetchEvent.req 1, FetchEvent.delay 2000, FetchEvent.req 2,
        FetchEvent.delay 2000, FetchEvent.req 3]) :=
  getAllOfertas_success payloadW 2000 3 (by omega) rfl

/-! ## Request validation (ChileCompraApiService.getOfertasWithParams)

getOfertasWithParams validates the two date bounds before delegating to the
paginated fetch: presence (JS falsiness — `undefined` or the empty string),
shape (the regex `\d\d\d\d-\d\d-\d\d` anchored at both ends), and order
(`new Date(date_from) > new Date(date_to)`). JS `Date` parsing of a
regex-shaped string yields an Invalid Date (time value NaN) when the month
or day is out of calendar range, and every comparison against NaN is false;
`jsParseDate` returns `none` in that case and a value order-isomorphic to
the time value otherwise. -/

/-- JS falsiness of an optional string parameter (`!params.date_from`):
`undefined` and the empty string are falsy. -/
def strFalsy : Option String → Bool
  | none => true
  | some s => s.isEmpty

/-- The test of the regex `\d\d\d\d-\d\d-\d\d` (anchored): ten characters,
digits in the year, month and day positions, dashes between. -/
def dateRegexTest (s : String) : Bool :=
  match s.toList with
  | [y1, y2, y3, y4, s1, m1, m2, s2, d1, d2] =>
    y1.isDigit && y2.isDigit && y3.isDigit && y4.isDigit && s1 == '-' &&
    m1.isDigit && m2.isDigit && s2 == '-' && d1.isDigit && d2.isDigit
  | _ => false

/-- Gregorian leap-year rule, as used by ECMAScript date arithmetic. -/
def isLeapYear (y : Nat) : Bool :=
  (y % 4 == 0 && !(y % 100 == 0)) || y % 400 == 0

/-- Number of days of month `m` in year `y`. -/
def daysInMonth (y m : Nat) : Nat :=
  if m == 2 then (if isLeapYear y then 29 else 28)
  else if m == 4 || m == 6 || m == 9 || m == 11 then 30
  else 31

/-- Numeric value of a decimal digit character. -/
def digitVal (c : Char) : Nat := c.toNat - '0'.toNat

/-- Models `new Date(s).getTime()` on a YYYY-MM-DD-shaped string: `none`
when ECMAScript produces an Invalid Date (month or day out of calendar
range, giving time value NaN), otherwise a value that is order-isomorphic
to the time value (the time value is strictly monotone in the lexicographic
(year, month, day) order, encoded here as y*10000 + m*100 + d). -/
def jsParseDate (s : String) : Option Nat :=
  match s.toList with
  | [y1, y2, y3, y4, s1, m1, m2, s2, d1, d2] =>
    if y1.isDigit && y2.isDigit && y3.isDigit && y4.isDigit && s1 == '-' &&
       m1.isDigit && m2.isDigit && s2 == '-' && d1.isDigit && d2.isDigit then
      let y := ((digitVal y1 * 10 + digitVal y2) * 10 + digitVal y3) * 10 + digitVal y4
      let m := digitVal m1 * 10 + digitVal m2
      let d := digitVal d1 * 10 + digitVal d2
      if 1 ≤ m ∧ m ≤ 12 ∧ 1 ≤ d ∧ d ≤ daysInMonth y m then
        some (y * 10000 + m * 100 + d)
      else none
    else none
  | _ => none

/-- Models `new Date(a) > new Date(b)` in JS: time-value comparison, false
whenever either side is NaN (an Invalid Date). -/
def jsDateGt (a b : String) : Bool :=
  match jsParseDate a, jsParseDate b with
  | some x, some y => decide (y < x)
  | _, _ => false

/-- Errors of the API service as the orchestrator sees them: a validation
throw (with its message) or a fetch-layer throw. -/
inductive ApiError where
  | validation (msg : String)
  | fetch
deriving DecidableEq, Repr

/-- ChileCompraApiService.getOfertasWithParams: reject missing dates, then
badly shaped dates, then an inverted range — each before any network
request — and otherwise run the paginated fetch. -/
def getOfertasWithParams (date_from date_to : Option String)
    (pages : Nat → Option ApiPayload) (d : Nat) :
    Except ApiError (List Oferta) × List FetchEvent :=
  if strFalsy date_from || strFalsy date_to then
    (.error (.validation "Los parámetros date_from y date_to son obligatorios"), [])
  else if !(dateRegexTest (date_from.getD "") && dateRegexTest (date_to.getD "")) then
    (.error (.validation "Las fechas deben estar en formato YYYY-MM-DD"), [])
  else if jsDateGt (date_from.getD "") (date_to.getD "") then
    (.error (.validation "date_from no puede ser posterior a date_to"), [])
  else
    (Except.mapError (fun _ => ApiError.fetch) (getAllOfertas pages d).fst,
     (getAllOfertas pages d).snd)

/-- C8: the call raises a validation error exactly when one of the dates is
missing (falsy), one of them fails the YYYY-MM-DD shape test, or date_from
parses strictly later than date_to; in each of these cases no page request
is issued (empty event trace); otherwise no validation error is raised. -/
theorem getOfertasWithParams_validation (date_from date_to : Option String)
    (pages : Nat → Option ApiPayload) (d : Nat) :
    ((∃ msg, (getOfertasWithParams date_from date_to pages d).fst =
        .error (.validation msg)) ↔
      (strFalsy date_from = true ∨ strFalsy date_to = true ∨
       dateRegexTest (date_from.getD "") = false ∨
       dateRegexTest (date_to.getD "") = false ∨
       jsDateGt (date_from.getD "") (date_to.getD "") = true)) ∧
    ((strFalsy date_from = true ∨ strFalsy date_to = true ∨
      dateRegexTest (date_from.getD "") = false ∨
      dateRegexTest (date_to.getD "") = false ∨
      jsDateGt (date_from.getD "") (date_to.getD "") = true) →
      (getOfertasWithParams date_from date_to pages d).snd = []) := by
  cases hc1 : strFalsy date_from || strFalsy date_to with
  | true =>
    have hfst : (getOfertasWithParams date_from date_to pages d).fst =
        .error (.validation "Los parámetros date_from y date_to son obligatorios") := by
      simp [getOfertasWithParams, hc1]
    have hsnd : (getOfertasWithParams date_from date_to pages d).snd = [] := by
      simp [getOfertasWithParams, hc1]
    refine ⟨⟨fun _ => ?_, fun _ => ⟨_, hfst⟩⟩, fun _ => hsnd⟩
    rcases Bool.or_eq_true_iff.mp hc1 with h | h
    · exact Or.inl h
    · exact Or.inr (Or.inl h)
  | false =>
    obtain ⟨hf, ht⟩ := Bool.or_eq_false_iff.mp hc1
    cases hc2 : dateRegexTest (date_from.getD "") && dateRegexTest (date_to.getD "") with
    | false =>
      have hfst : (getOfertasWithParams date_from date_to pages d).fst =
          .error (.validation "Las fechas deben estar en formato YYYY-MM-DD") := by
        simp [getOfertasWithParams, hc1, hc2]
      have hsnd : (getOfertasWithParams date_from date_to pages d).snd = [] := by
        simp [getOfertasWithParams, hc1, hc2]
      refine ⟨⟨fun _ => ?_, fun _ => ⟨_, hfst⟩⟩, fun _ => hsnd⟩
      rcases Bool.and_eq_false_iff.mp hc2 with h | h
      · exact Or.inr (Or.inr (Or.inl h))
      · exact Or.inr (Or.inr (Or.inr (Or.inl h)))
    | true =>
      obtain ⟨hr1, hr2⟩ := Bool.and_eq_true_iff.mp hc2
      rcases Bool.eq_false_or_eq_true (jsDateGt (date_from.getD "") (date_to.getD ""))
        with hc3 | hc3
      · have hfst : (getOfertasWithParams date_from date_to pages d).fst =
            .error (.validation "date_from no puede ser posterior a date_to") := by
          simp [getOfertasWithParams, hc1, hc2, hc3]
        have hsnd : (getOfertasWithParams date_from date_to pages d).snd = [] := by
          simp [getOfertasWithParams, hc1, hc2, hc3]
        exact ⟨⟨fun _ => Or.inr (Or.inr (Or.inr (Or.inr hc3))), fun _ => ⟨_, hfst⟩⟩,
          fun _ => hsnd⟩
      · have hnodisj : ¬ (strFalsy date_from = true ∨ strFalsy date_to = true ∨
            dateRegexTest (date_from.getD "") = false ∨
            dateRegexTest (date_to.getD "") = false ∨
            jsDateGt (date_from.getD "") (date_to.getD "") = true) := by
          intro h
          rcases h with h | h | h | h | h
          · rw [hf] at h; cases h
          · rw [ht] at h; cases h
          · rw [hr1] at h; cases h
          · rw [hr2] at h; cases h
          · rw [hc3] at h; cases h
        have hnoval : ∀ msg, (getOfertasWithParams date_from date_to pages d).fst ≠
            .error (.validation msg) := by
          intro msg hmsg
          simp only [getOfertasWithParams, hc1, hc2, hc3, Bool.not_true, Bool.false_eq_true,
            if_false] at hmsg
          cases hga : (getAllOfertas pages d).fst with
          | ok l => rw [hga] at hmsg; cases hmsg
          | error e => rw [hga] at hmsg; cases hmsg
        refine ⟨⟨fun h => ?_, fun h => absurd h hnodisj⟩, fun h => absurd h hnodisj⟩
        obtain ⟨msg, hmsg⟩ := h
        exact absurd hmsg (hnoval msg)

/-- Witness for `getOfertasWithParams_validation`: an inverted but
well-shaped date pair is rejected with no page request issued. -/
theorem getOfertasWithParams_validation_witness :
    (getOfertasWithParams (some "2025-01-02") (some "2025-01-01") pagesW 2000).snd = [] :=
  (getOfertasWithParams_validation (some "2025-01-02") (some "2025-01-01") pagesW 2000).2
    (Or.inr (Or.inr (Or.inr (Or.inr (by decide)))))

/-! ## Notifier (EmailService.sendOfertasReport)

The delivery endpoint is an environment `post : EmailConfig → Option Nat`:
`some status` is the HTTP status of a completed POST, `none` a thrown error
(network failure, timeout). Rendering is a total string computation; the
static HTML and CSS text of the source templates is abbreviated here, while
every dynamic interpolation (business-line name, report date, per-offer
fields, counts and totals, generation timestamp) appears as in the source. -/

/-- The body {to, subject, html} posted to the email microservice
(interface `EmailConfig` in models/types). -/
structure EmailConfig where
  «to» : List String
  subject : String
  html : String
deriving DecidableEq, Repr

/-- EmailService.generateFichaLink: the public link derived from a code. -/
def generateFichaLink (codigo : String) : String :=
  "https://buscador.mercadopublico.cl/ficha?code=" ++ codigo

/-- EmailService.prepareOfertasForEmail: regenerate every enlace_ficha. -/
def prepareOfertasForEmail (ofertas : List OfertaDocument) : List OfertaDocument :=
  ofertas.map fun oferta => { oferta with enlace_ficha := generateFichaLink oferta.codigo }

/-- The empty-state variant of EmailService.generateEmailHTML, rendered when
the record list is empty. -/
def generateEmailHTMLEmpty (emprendimiento fecha now : String) : String :=
  "<title>Reporte de Ofertas - " ++ emprendimiento ++ "</title>" ++
  "<h1>📊 Reporte de Ofertas</h1><h2>" ++ emprendimiento ++ "</h2>" ++
  "<p>Fecha: " ++ fecha ++ "</p>" ++
  "<h3>No se encontraron nuevas ofertas para hoy</h3>" ++
  "<p>No hay ofertas que coincidan con los criterios configurados para este emprendimiento.</p>" ++
  "<p>Sistema de Monitoreo de Ofertas Chile Compra</p>" ++
  "<p>Generado automáticamente el " ++ now ++ "</p>"

/-- One row of the offer table of EmailService.generateEmailHTML. -/
def ofertaRowHTML (oferta : OfertaDocument) : String :=
  "<tr><td><h3><a href=" ++ oferta.enlace_ficha ++ ">" ++ oferta.nombre ++ "</a></h3>" ++
  "<div>Código: " ++ oferta.codigo ++ "</div>" ++
  "<div>Organismo: " ++ oferta.organismo ++ "</div>" ++
  "<div>Unidad: " ++ oferta.unidad ++ "</div>" ++
  "<div>Estado: " ++ oferta.estado ++ "</div>" ++
  "<div>Monto: $" ++ toString oferta.monto_disponible_CLP ++ " CLP</div>" ++
  "<div>Fecha de Publicación: " ++ oferta.fecha_publicacion ++ "</div>" ++
  "<div>Fecha de Cierre: " ++ oferta.fecha_cierre ++ "</div>" ++
  "<div>Proveedores cotizando: " ++ toString oferta.cantidad_proveedores_cotizando ++
  "</div></td></tr>"

/-- EmailService.generateEmailHTML: empty-state variant for an empty record
list, otherwise the statistics header followed by one table row per offer
(`ofertas.map(...).join("")`). -/
def generateEmailHTML (ofertas : List OfertaDocument) (emprendimiento fecha now : String) :
    String :=
  if ofertas.length == 0 then generateEmailHTMLEmpty emprendimiento fecha now
  else
    "<title>Reporte de Ofertas - " ++ emprendimiento ++ "</title>" ++
    "<h1>📊 Reporte de Ofertas</h1><h2>" ++ emprendimiento ++ "</h2>" ++
    "<p>Fecha: " ++ fecha ++ "</p>" ++
    "<div>" ++ toString ofertas.length ++ " Ofertas Encontradas</div>" ++
    "<div>$" ++ toString (ofertas.foldl (fun sum o => sum + o.monto_disponible_CLP) 0) ++
    " Monto Total (CLP)</div>" ++
    "<tbody>" ++ String.join (ofertas.map ofertaRowHTML) ++ "</tbody>" ++
    "<p>Sistema de Monitoreo de Ofertas Chile Compra</p>" ++
    "<p>Generado automáticamente el " ++ now ++ "</p>"

/-- The report date of EmailService.sendOfertasReport:
`fecha || new Date().toLocaleDateString("es-CL")` — an absent or empty
`fecha` falls back to the current date string. -/
def fechaReporteOf (now : String) (fecha : Option String) : String :=
  match fecha with
  | some s => if s.isEmpty then now else s
  | none => now

/-- The exact body EmailService.sendOfertasReport posts for the given
inputs: all recipients in one message, the subject line of the source, and
the rendered report over the offers with regenerated links. -/
def sendOfertasReportConfig (now : String) (ofertas : List OfertaDocument)
    (emprendimiento : String) (recipients : List String) (fecha : Option String) :
    EmailConfig :=
  { «to» := recipients
    subject := "📊 Reporte Diario de Ofertas - " ++ emprendimiento ++ " (" ++
      fechaReporteOf now fecha ++ ")"
    html := generateEmailHTML (prepareOfertasForEmail ofertas) emprendimiento
      (fechaReporteOf now fecha) now }

/-- EmailService.sendOfertasReport: render and POST the report; return true
only on HTTP status 200, false on any other status; a thrown error
(modelled as `none`) is caught and converted to false. -/
def sendOfertasReport (post : EmailConfig → Option Nat) (now : String)
    (ofertas : List OfertaDocument) (emprendimiento : String)
    (recipients : List String) (fecha : Option String) : Bool :=
  match post (sendOfertasReportConfig now ofertas emprendimiento recipients fecha) with
  | some status => if status == 200 then true else false
  | none => false

/-- C9: report dispatch is a total Boolean function of its inputs (never
throws); it returns true exactly when the delivery endpoint answers HTTP
200 to the posted report, and false in every other case — any non-200
status or a thrown delivery error; the empty record list renders the
empty-state report variant. -/
theorem sendOfertasReport_spec (post : EmailConfig → Option Nat) (now : String)
    (ofertas : List OfertaDocument) (emprendimiento : String)
    (recipients : List String) (fecha : Option String) :
    (sendOfertasReport post now ofertas emprendimiento recipients fecha = true ↔
      post (sendOfertasReportConfig now ofertas emprendimiento recipients fecha) =
        some 200) ∧
    (sendOfertasReportConfig now [] emprendimiento recipients fecha).html =
      generateEmailHTMLEmpty emprendimiento (fechaReporteOf now fecha) now := by
  refine ⟨?_, rfl⟩
  cases hp : post (sendOfertasReportConfig now ofertas emprendimiento recipients fecha) with
  | none => simp [sendOfertasReport, hp]
  | some status =>
    by_cases h200 : status = 200
    · subst h200
      simp [sendOfertasReport, hp]
    · have hbeq : (status == 200) = false := by
        simp only [beq_eq_false_iff_ne, ne_eq]; exact h200
      simp only [sendOfertasReport, hp, hbeq, if_false, Bool.false_eq_true, false_iff]
      intro hc
      cases hc
      exact h200 rfl

/-! ## Extraction orchestrator (ExtractionService)

Collaborators are supplied as an environment: the API service is a function
from query parameters and date range to a result (or a throw), the database
insert returns the two counters or throws, and the two email sends return
booleans and never throw (as proved for the Notifier above). Calls to the
Notifier are recorded as a trace so that the theorems can speak about what
the orchestrator passed to it. -/

/-- Filters of one query configuration (the `params` of `EndpointConfig` —
category, region, keywords, status, order_by; the date range is injected
per run by the orchestrator). -/
structure EndpointParams where
  category : Option String
  region : Option String
  keywords : Option String
  status : Option Int
  order_by : Option String
deriving DecidableEq, Repr

/-- One named query configuration of a business line. -/
structure EndpointConfig where
  name : String
  description : String
  params : EndpointParams
deriving DecidableEq, Repr

/-- Static configuration of one business line
(interface `EmprendimientoConfig`). -/
structure EmprendimientoConfig where
  id : String
  name : String
  description : String
  emailRecipients : List String
  endpoints : List EndpointConfig
deriving DecidableEq, Repr

/-- Calendar-date range of one run (interface `DateRange`). -/
structure DateRange where
  «from» : String
  «to» : String
deriving DecidableEq, Repr

/-- Per-business-line summary of one run (interface `ExtraccionSummary`);
the JS `Date` timestamp is modelled as a string. -/
structure ExtraccionSummary where
  emprendimiento : String
  total_ofertas : Nat
  nuevas_ofertas : Nat
  fecha_extraccion : String
  endpoints_consultados : List String
deriving DecidableEq, Repr

/-- One call the orchestrator makes to the email service: a report with the
offers passed, or an error notification. -/
inductive NotifyCall where
  | report (ofertas : List OfertaDocument) (emprendimiento : String)
      (recipients : List String) (period : String)
  | errorReport (emprendimiento : String) (recipients : List String)
deriving DecidableEq, Repr

/-- The collaborators of ExtractionService, as the orchestrator calls them,
plus the connection state and the clock. `apiGetOfertas` models
`apiService.getOfertasWithParams` (a throw is `.error ()`), `dbInsert`
models `databaseService.insertOfertas` returning (insertedCount,
duplicateCount) or throwing, `connectionActive` models
`databaseService.isConnectionActive()` and `connect` the outcome of
`databaseService.connect()`. -/
structure OrchestratorEnv where
  apiGetOfertas : EndpointParams → DateRange → Except Unit (List Oferta)
  dbInsert : List OfertaDocument → Except Unit (Nat × Nat)
  connectionActive : Bool
  connect : Except Unit Unit
  today : String
  now : String

/-- ExtractionService.extractOffersForEndpoint: query the API service with
the endpoint filters plus the run date range and attach extraction metadata
(business-line id, endpoint name, extraction timestamp, derived link) to
every offer; a throw propagates. -/
def extractOffersForEndpoint (env : OrchestratorEnv)
    (emprendimiento : EmprendimientoConfig) (endpoint : EndpointConfig)
    (dateRange : DateRange) : Except Unit (List OfertaDocument) :=
  match env.apiGetOfertas endpoint.params dateRange with
  | .error e => .error e
  | .ok ofertas => .ok (ofertas.map fun oferta =>
      { toOferta := oferta
        emprendimiento := emprendimiento.id
        endpoint_name := endpoint.name
        fecha_extraccion := env.now
        enlace_ficha := "https://buscador.mercadopublico.cl/ficha?code=" ++ oferta.codigo })

/-- ExtractionService.extractOffersForEmprendimiento: accumulate the offers
of every endpoint of the business line in order; an endpoint whose
extraction throws is skipped (caught and logged) and the loop continues. -/
def extractOffersForEmprendimiento (env : OrchestratorEnv)
    (emprendimiento : EmprendimientoConfig) (dateRange : DateRange) :
    List OfertaDocument :=
  emprendimiento.endpoints.foldl
    (fun acc endpoint =>
      match extractOffersForEndpoint env emprendimiento endpoint dateRange with
      | .ok ofertas => acc ++ ofertas
      | .error _ => acc)
    []

/-- ExtractionService.processEmprendimiento: extract, deduplicate, insert,
email the first insertedCount deduplicated offers to the configured
recipients (skipped when no recipients are configured), and build the
summary. On a throw, best-effort send an error notification (when
recipients are configured) and rethrow. The second component records the
email-service calls made. -/
def processEmprendimiento (env : OrchestratorEnv)
    (emprendimiento : EmprendimientoConfig) (dateRange : DateRange) :
    Except Unit ExtraccionSummary × List NotifyCall :=
  let ofertasUnicas :=
    removeDuplicateOffers (extractOffersForEmprendimiento env emprendimiento dateRange)
  match env.dbInsert ofertasUnicas with
  | .error e =>
    (.error e,
     if emprendimiento.emailRecipients.length > 0 then
       [NotifyCall.errorReport emprendimiento.name emprendimiento.emailRecipients]
     else [])
  | .ok (insertedCount, _) =>
    (.ok { emprendimiento := emprendimiento.name
           total_ofertas := ofertasUnicas.length
           nuevas_ofertas := insertedCount
           fecha_extraccion := env.now
           endpoints_consultados := emprendimiento.endpoints.map (fun e => e.name) },
     if emprendimiento.emailRecipients.length > 0 then
       [NotifyCall.report (ofertasUnicas.take insertedCount) emprendimiento.name
          emprendimiento.emailRecipients (dateRange.«from» ++ " - " ++ dateRange.«to»)]
     else [])

/-- ExtractionService.generateDateRange: the backfill run spans the fixed
start 2025-08-01 through today, the routine run covers only today. -/
def generateDateRange (today : String) (isInitialRun : Bool) : DateRange :=
  if isInitialRun then { «from» := "2025-08-01", «to» := today }
  else { «from» := today, «to» := today }

/-- The zero-valued summary runCompleteExtraction appends for a business
line whose processing threw. -/
def errorSummary (env : OrchestratorEnv) (emprendimiento : EmprendimientoConfig) :
    ExtraccionSummary :=
  { emprendimiento := emprendimiento.name
    total_ofertas := 0
    nuevas_ofertas := 0
    fecha_extraccion := env.now
    endpoints_consultados := [] }

/-- The per-business-line loop of ExtractionService.runCompleteExtraction:
push the summary of each line, replacing it by the zero-valued summary when
processing threw, and keep going. -/
def runCompleteExtractionGo (env : OrchestratorEnv) (dateRange : DateRange)
    (acc : List ExtraccionSummary × List NotifyCall) :
    List EmprendimientoConfig → List ExtraccionSummary × List NotifyCall
  | [] => acc
  | emprendimiento :: rest =>
    match processEmprendimiento env emprendimiento dateRange with
    | (.ok summary, calls) =>
      runCompleteExtractionGo env dateRange (acc.1 ++ [summary], acc.2 ++ calls) rest
    | (.error _, calls) =>
      runCompleteExtractionGo env dateRange
        (acc.1 ++ [errorSummary env emprendimiento], acc.2 ++ calls) rest

/-- ExtractionService.runCompleteExtraction: compute the run date range,
ensure the database connection (a failed `connect()` throws out of the
run), then process every configured business line sequentially through the
loop above, returning all summaries and the email-service calls made. -/
def runCompleteExtraction (env : OrchestratorEnv)
    (emprendimientos : List EmprendimientoConfig) (isInitialRun : Bool) :
    Except Unit (List ExtraccionSummary × List NotifyCall) :=
  let dateRange := generateDateRange env.today isInitialRun
  match (if env.connectionActive then Except.ok () else env.connect) with
  | .error e => .error e
  | .ok _ => .ok (runCompleteExtractionGo env dateRange ([], []) emprendimientos)

/-- C1: when the Persistence Gateway reports n newly inserted records for
the deduplicated batch of a business line with configured recipients, the
orchestrator makes exactly one Notifier call, passing exactly the first n
records of the deduplicated batch in dedup order, addressed to the
configured recipients, with the run period label — and reports the batch
size and n in the summary. -/
theorem processEmprendimiento_notifies_first_n (env : OrchestratorEnv)
    (emprendimiento : EmprendimientoConfig) (dateRange : DateRange) (n dup : Nat)
    (hins : env.dbInsert (removeDuplicateOffers
      (extractOffersForEmprendimiento env emprendimiento dateRange)) = .ok (n, dup))
    (hrec : emprendimiento.emailRecipients.length > 0) :
    processEmprendimiento env emprendimiento dateRange =
      (.ok { emprendimiento := emprendimiento.name
             total_ofertas := (removeDuplicateOffers
               (extractOffersForEmprendimiento env emprendimiento dateRange)).length
             nuevas_ofertas := n
             fecha_extraccion := env.now
             endpoints_consultados := emprendimiento.endpoints.map (fun e => e.name) },
       [NotifyCall.report
          ((removeDuplicateOffers
            (extractOffersForEmprendimiento env emprendimiento dateRange)).take n)
          emprendimiento.name emprendimiento.emailRecipients
          (dateRange.«from» ++ " - " ++ dateRange.«to»)]) := by
  simp [processEmprendimiento, hins, hrec]

/-- Environment of the concrete orchestrator examples: one query returning
offers 1 and 2, a database reporting 1 new and 1 duplicate. -/
def envW : OrchestratorEnv :=
  { apiGetOfertas := fun _ _ => .ok [mkOferta 1 "a", mkOferta 2 "b"]
    dbInsert := fun _ => .ok (1, 1)
    connectionActive := true
    connect := .ok ()
    today := "2025-10-12"
    now := "2025-10-12T08:00:00Z" }

/-- A concrete query configuration for the orchestrator examples. -/
def endpointW : EndpointConfig :=
  { name := "Servicios de Transporte General"
    description := "Servicios de transporte en general"
    params := { category := some "25101500", region := none, keywords := none
                status := some 2, order_by := some "recent" } }

/-- A concrete business line for the orchestrator examples. -/
def empW : EmprendimientoConfig :=
  { id := "transporte", name := "Servicios de Transporte"
    description := "Emprendimiento de transporte"
    emailRecipients := ["usuario@ejemplo.com"], endpoints := [endpointW] }

/-- The concrete routine-run date range of the orchestrator examples. -/
def drW : DateRange := { «from» := "2025-10-12", «to» := "2025-10-12" }

/-- Witness for `processEmprendimiento_notifies_first_n`: two extracted
offers, one reported inserted — the Notifier receives exactly the first
deduplicated record. -/
theorem processEmprendimiento_notifies_first_n_witness :
    processEmprendimiento envW empW drW =
      (.ok { emprendimiento := "Servicios de Transporte", total_ofertas := 2
             nuevas_ofertas := 1, fecha_extraccion := "2025-10-12T08:00:00Z"
             endpoints_consultados := ["Servicios de Transporte General"] },
       [NotifyCall.report
          [{ toOferta := mkOferta 1 "a", emprendimiento := "transporte"
             endpoint_name := "Servicios de Transporte General"
             fecha_extraccion := "2025-10-12T08:00:00Z"
             enlace_ficha := "https://buscador.mercadopublico.cl/ficha?code=a" }]
          "Servicios de Transporte" ["usuario@ejemplo.com"] "2025-10-12 - 2025-10-12"]) :=
  processEmprendimiento_notifies_first_n envW empW drW 1 1 rfl (by decide)

theorem runCompleteExtractionGo_spec (env : OrchestratorEnv) (dateRange : DateRange) :
    ∀ (emps : List EmprendimientoConfig) (s : List ExtraccionSummary)
      (c : List NotifyCall),
      runCompleteExtractionGo env dateRange (s, c) emps =
        (s ++ emps.map (fun emprendimiento =>
          match (processEmprendimiento env emprendimiento dateRange).fst with
          | .ok summary => summary
          | .error _ => errorSummary env emprendimiento),
         c ++ emps.flatMap (fun emprendimiento =>
          (processEmprendimiento env emprendimiento dateRange).snd)) := by
  intro emps
  induction emps with
  | nil => intro s c; simp [runCompleteExtractionGo]
  | cons emp rest ih =>
    intro s c
    cases hp : processEmprendimiento env emp dateRange with
    | mk pfst psnd =>
      cases pfst with
      | ok summary =>
        simp only [runCompleteExtractionGo, hp]
        rw [ih]
        simp [hp]
      | error e =>
        simp only [runCompleteExtractionGo, hp]
        rw [ih]
        simp [hp]

/-- C2: whenever the database connection is available (already active, or
successfully established), the run returns exactly one summary per
configured business line in configuration order — the business-line summary
when its processing succeeded, the zero-valued summary when it threw — so
no single failure aborts the run; and a failed business line with
configured recipients produced exactly one best-effort error-report call to
the Notifier. -/
theorem runCompleteExtraction_isolation (env : OrchestratorEnv)
    (emprendimientos : List EmprendimientoConfig) (isInitialRun : Bool)
    (hconn : env.connectionActive = true ∨ env.connect = .ok ()) :
    runCompleteExtraction env emprendimientos isInitialRun =
      .ok (emprendimientos.map (fun emprendimiento =>
             match (processEmprendimiento env emprendimiento
                 (generateDateRange env.today isInitialRun)).fst with
             | .ok summary => summary
             | .error _ => errorSummary env emprendimiento),
           emprendimientos.flatMap (fun emprendimiento =>
             (processEmprendimiento env emprendimiento
               (generateDateRange env.today isInitialRun)).snd)) ∧
    ∀ emprendimiento ∈ emprendimientos, ∀ e,
      (processEmprendimiento env emprendimiento
        (generateDateRange env.today isInitialRun)).fst = .error e →
      emprendimiento.emailRecipients.length > 0 →
      (processEmprendimiento env emprendimiento
        (generateDateRange env.today isInitialRun)).snd =
        [NotifyCall.errorReport emprendimiento.name emprendimiento.emailRecipients] := by
  constructor
  · have hok : (if env.connectionActive then Except.ok () else env.connect) =
        Except.ok () := by
      rcases hconn with h | h
      · rw [h]; simp
      · by_cases hca : env.connectionActive
        · simp [hca]
        · simp [hca, h]
    simp only [runCompleteExtraction, hok]
    rw [runCompleteExtractionGo_spec]
    simp
  · intro emprendimiento _ e herr hrec
    cases hd : env.dbInsert (removeDuplicateOffers (extractOffersForEmprendimiento env
        emprendimiento (generateDateRange env.today isInitialRun))) with
    | ok p =>
      exfalso
      obtain ⟨a, b⟩ := p
      simp only [processEmprendimiento, hd] at herr
      cases herr
    | error e2 =>
      simp only [processEmprendimiento, hd]
      simp [hrec]

/-- Environment in which every database insert throws, for the run-level
witness. -/
def envFailW : OrchestratorEnv :=
  { envW with dbInsert := fun _ => .error () }

/-- Witness for `runCompleteExtraction_isolation`: a run over one business
line whose insert throws still returns one (zero-valued) summary and made
one error-report call. -/
theorem runCompleteExtraction_isolation_witness :
    runCompleteExtraction envFailW [empW] false =
      .ok ([{ emprendimiento := "Servicios de Transporte", total_ofertas := 0
              nuevas_ofertas := 0, fecha_extraccion := "2025-10-12T08:00:00Z"
              endpoints_consultados := [] }],
           [NotifyCall.errorReport "Servicios de Transporte" ["usuario@ejemplo.com"]]) :=
  (runCompleteExtraction_isolation envFailW [empW] false (Or.inl rfl)).1
